import Mathlib

/-!
Shallow embedding of the synchronization core of the ZKTBiometricUpdater
repository (src/src/core/services/BiometricSyncService.js, the device
registry src/unnamed/part_007 = BiometricDeviceManager.js, the ZKTeco
adapter src/unnamed/part_008 = ZKTecoAdapter.js, and the device-loading
part of the configuration class in src/src/features/index.js).

Modelling conventions:
* JavaScript promises that may reject are modelled with `Except String`;
  the string is the error message.
* The network/database behaviour of the external collaborators (device
  reachability, per-record insert success, checkpoint-update success) is
  an input to the model: a `DevBehavior` record per device and a `Sink`
  record for the database adapter.  The orchestrator code itself is
  translated statement by statement from the source.
* Side effects are recorded in an ordered trace of `Event`s so that
  ordering properties (what happened before what) are provable.
* `startTime` / `endTime` fields of the statistics objects are wall-clock
  values with no logical content; they are omitted from the embedded
  statistics records.
-/

/-- One attendance record, as produced by `ZKTecoAdapter.getAttendanceData`
(the formatted shape: employeeNumber, timeRecord, inOutMode, verifyMode,
ipAddress, location). -/
structure TimeRec where
  employeeNumber : Nat := 0
  timeRecord : String := ""
  inOutMode : Nat := 0
  verifyMode : Nat := 1
  ipAddress : String := ""
  location : String := ""
deriving DecidableEq, Repr

/-- Oracle describing how one physical device behaves during a pass:
whether `getDeviceInfo`, `connect`, `getAttendanceData` and `disconnect`
succeed (`none`) or reject with a message (`some msg`), and which records
a successful retrieval returns. -/
structure DevBehavior where
  infoFail : Option String := none
  connectFail : Option String := none
  retrieveFail : Option String := none
  disconnectFail : Option String := none
  records : List TimeRec := []
deriving DecidableEq, Repr

/-- One configured device together with its runtime behaviour.  The
configuration fields mirror the validated entries built by
`Config.loadDevicesFromFile` (id, ip, name, enabled); the remaining
validated fields (port, parser, protocol, inport, timeout, model, type)
do not influence any embedded control flow and are omitted. -/
structure Device where
  id : String
  ip : String := ""
  name : String := ""
  enabled : Bool := true
  behavior : DevBehavior := {}
deriving DecidableEq, Repr

/-- Oracle for the persistence sink (`FirebirdAdapter` behind
`IDatabaseAdapter`): whether connect/disconnect succeed, whether
`insertTimeRecord` succeeds for a given record, and whether
`updateBiometricDevice` succeeds for a given device id. -/
structure Sink where
  connectFail : Option String := none
  disconnectFail : Option String := none
  insertFail : TimeRec → Option String := fun _ => none
  updateFail : String → Option String := fun _ => none

/-- One entry of an error list.  The JavaScript code pushes plain objects
with different field subsets (`{record, error}`, `{deviceId, error, type}`,
`{error}`, `{error, type}`); a single record with optional fields models
all of them. -/
structure ErrEntry where
  deviceId : Option String := none
  record : Option TimeRec := none
  message : String := ""
  etype : Option String := none
deriving DecidableEq, Repr

/-- The per-device statistics object built by `syncDeviceData`
(timestamps omitted, see the file header). -/
structure DeviceStats where
  totalRecords : Nat := 0
  insertedRecords : Nat := 0
  errors : List ErrEntry := []
deriving DecidableEq, Repr

/-- The pass-level statistics object built by `syncMultipleDevices`.
`deviceStats` is the JavaScript object used as a map from device id to
per-device statistics; modelled as an insertion-ordered association list
with replace-on-existing-key semantics. -/
structure Stats where
  totalRecords : Nat := 0
  insertedRecords : Nat := 0
  errors : List ErrEntry := []
  deviceStats : List (String × DeviceStats) := []
deriving DecidableEq, Repr

/-- Observable calls made during a pass, in program order.  `dbConnect`
and `devConnect` are recorded on success (`dbConnectFail` /
`devConnectFail` on a failed attempt); the disconnect events record the
attempt; `insertOk`/`insertFail` record each `insertTimeRecord` call with
its outcome; `checkpoint`/`checkpointFail` record each
`updateBiometricDevice` call with its outcome. -/
inductive Event where
  | dbConnect
  | dbConnectFail
  | dbDisconnect
  | devConnect (id : String)
  | devConnectFail (id : String)
  | devDisconnect (id : String)
  | retrieve (id : String) (n : Nat)
  | insertOk (r : TimeRec)
  | insertFail (r : TimeRec)
  | checkpoint (id : String)
  | checkpointFail (id : String)
deriving DecidableEq, Repr

/-- Concatenation of the images of a list under a list-valued function;
used to collect the events of a sequential loop. -/
def catMap {α β : Type} (f : α → List β) : List α → List β
  | [] => []
  | a :: as => f a ++ catMap f as

/-- JavaScript object property assignment `stats.deviceStats[k] = v`:
replace in place when the key exists, append otherwise. -/
def setEntry (m : List (String × DeviceStats)) (k : String) (v : DeviceStats) :
    List (String × DeviceStats) :=
  if m.any (fun p => p.1 == k) then m.map (fun p => if p.1 == k then (k, v) else p)
  else m ++ [(k, v)]

/-- Lookup in the `deviceStats` map. -/
def getEntry (m : List (String × DeviceStats)) (k : String) : Option DeviceStats :=
  (m.find? (fun p => p.1 == k)).map (fun p => p.2)

/-- Device identity as returned by `ZKTecoAdapter.getDeviceInfo`
(only the fields the orchestrator reads). -/
structure DevInfo where
  id : String
  name : String
deriving DecidableEq, Repr

/-- `device.getDeviceInfo()`: rejects according to the behaviour oracle,
otherwise resolves to the config-based identity. -/
def getDeviceInfoR (d : Device) : Except String DevInfo :=
  match d.behavior.infoFail with
  | some m => .error m
  | none => .ok ⟨d.id, d.name⟩

/-- The record-insertion loop of `syncDeviceData` (lines 208-219): for
each retrieved record attempt `databaseAdapter.insertTimeRecord`; on
success increment `insertedRecords`, on failure append an error entry
carrying the offending record, and continue with the next record. -/
def insertLoop (sink : Sink) (ds : DeviceStats) : List TimeRec → DeviceStats × List Event
  | [] => (ds, [])
  | r :: rest =>
    match sink.insertFail r with
    | none =>
      let nxt := insertLoop sink { ds with insertedRecords := ds.insertedRecords + 1 } rest
      (nxt.1, Event.insertOk r :: nxt.2)
    | some m =>
      let nxt := insertLoop sink
        { ds with errors := ds.errors ++ [{ record := some r, message := m }] } rest
      (nxt.1, Event.insertFail r :: nxt.2)

/-- `BiometricSyncService.syncDeviceData` (lines 184-238): connect the
device, retrieve the window's records, set `totalRecords`, disconnect the
device early, then run the per-record insertion loop.  Any error before
the loop is caught; the catch pushes an error entry onto the (then
discarded) local statistics, best-effort disconnects the device, and
rethrows — so the embedded function returns `.error` with that message
and the mutated local object is dropped, exactly as in the source. -/
def syncDeviceData (sink : Sink) (d : Device) : Except String DeviceStats × List Event :=
  match d.behavior.connectFail with
  | some m => (.error m, [Event.devConnectFail d.id, Event.devDisconnect d.id])
  | none =>
    match d.behavior.retrieveFail with
    | some m => (.error m, [Event.devConnect d.id, Event.devDisconnect d.id])
    | none =>
      match d.behavior.disconnectFail with
      | some m =>
        (.error m,
          [Event.devConnect d.id, Event.retrieve d.id d.behavior.records.length,
           Event.devDisconnect d.id, Event.devDisconnect d.id])
      | none =>
        let res := insertLoop sink { totalRecords := d.behavior.records.length } d.behavior.records
        (.ok res.1,
          [Event.devConnect d.id, Event.retrieve d.id d.behavior.records.length,
           Event.devDisconnect d.id] ++ res.2)

/-- How `syncMultipleDevices` folds one device's outcome into the pass
statistics (lines 72-91): on success it accumulates totals, merges the
device's errors, and stores the per-device statistics; in the catch it
pushes one pass-level error entry tagged with the device id and stores a
zeroed per-device entry. -/
def applyDevOutcome (st : Stats) (did : String) : Except String DeviceStats → Stats
  | .ok ds =>
    { totalRecords := st.totalRecords + ds.totalRecords
      insertedRecords := st.insertedRecords + ds.insertedRecords
      errors := st.errors ++ ds.errors
      deviceStats := setEntry st.deviceStats did ds }
  | .error m =>
    { st with
      errors := st.errors ++ [{ deviceId := some did, message := m, etype := some "device_sync_error" }]
      deviceStats := setEntry st.deviceStats did { errors := [{ message := m }] } }

/-- The per-device loop of `syncMultipleDevices` (lines 65-93).  Note that
`device.getDeviceInfo()` is awaited before the try/catch: an info
rejection escapes the loop; a `syncDeviceData` rejection is caught and
folded into the statistics, and the loop continues. -/
def syncLoop (sink : Sink) : List Device → Stats → Except String Stats × List Event
  | [], st => (.ok st, [])
  | d :: rest, st =>
    match getDeviceInfoR d with
    | .error m => (.error m, [])
    | .ok info =>
      let r := syncDeviceData sink d
      let nxt := syncLoop sink rest (applyDevOutcome st info.id r.1)
      (nxt.1, r.2 ++ nxt.2)

/-- The error message of a JavaScript ReferenceError raised when an
identifier that is not in scope is read. -/
def refErrMsg : String := "ReferenceError: deviceInfo is not defined"

/-- `BiometricSyncService.updateAllDevicesLastSync` (lines 245-256).
The per-device try/catch is intended to make the checkpoint update
best-effort, but the catch block reads `deviceInfo?.id` and `deviceInfo`
is a `const` declared inside the try block, hence out of scope in the
catch: evaluating the log-message template raises a `ReferenceError`,
which propagates out of the loop.  The embedding reproduces this: any
failing iteration yields `.error refErrMsg`. -/
def updateAllDevicesLastSync (sink : Sink) : List Device → Except String Unit × List Event
  | [] => (.ok (), [])
  | d :: rest =>
    match getDeviceInfoR d with
    | .error _ => (.error refErrMsg, [])
    | .ok info =>
      match sink.updateFail info.id with
      | some _ => (.error refErrMsg, [Event.checkpointFail info.id])
      | none =>
        let nxt := updateAllDevicesLastSync sink rest
        (nxt.1, Event.checkpoint info.id :: nxt.2)

/-- `BiometricDeviceManager`: the registry.  It stores configurations
keyed by id (`registerDevice` replaces on an existing id); adapters are
created lazily from the stored configuration, so in this value-level
model a stored entry doubles as the adapter it materializes. -/
structure Manager where
  deviceConfigs : List (String × Device) := []
deriving Repr

/-- `BiometricDeviceManager.registerDevice` (part_007 lines 19-26):
rejects a configuration with a falsy id, otherwise stores it by id. -/
def Manager.registerDevice (mgr : Manager) (d : Device) : Except String Manager :=
  if d.id = "" then .error "Device configuration must have an ID"
  else .ok { deviceConfigs :=
    if mgr.deviceConfigs.any (fun p => p.1 == d.id) then
      mgr.deviceConfigs.map (fun p => if p.1 == d.id then (d.id, d) else p)
    else mgr.deviceConfigs ++ [(d.id, d)] }

/-- `BiometricDeviceManager.registerDevices`: register each configuration
in order. -/
def Manager.registerDevices (mgr : Manager) : List Device → Except String Manager
  | [] => .ok mgr
  | d :: rest =>
    match mgr.registerDevice d with
    | .error m => .error m
    | .ok mgr2 => mgr2.registerDevices rest

/-- `BiometricDeviceManager.getDevice` (part_007 lines 43-64): return the
device for a registered id, fail with the unknown-device error
otherwise. -/
def Manager.getDevice (mgr : Manager) (id : String) : Except String Device :=
  match mgr.deviceConfigs.find? (fun p => p.1 == id) with
  | some p => .ok p.2
  | none => .error ("Device configuration not found for ID: " ++ id)

/-- `BiometricDeviceManager.getAllDevices` (part_007 lines 70-76): one
device per registered configuration, in registration order. -/
def Manager.getAllDevices (mgr : Manager) : List Device :=
  mgr.deviceConfigs.map (fun p => p.2)

/-- The explicit-id resolution of `syncMultipleDevices` (line 53):
`idsArray.map(id => manager.getDevice(id))`.  Returns the devices
materialized before a failure together with the failure, mirroring that
`getDevice` caches each adapter it creates before `map` throws. -/
def resolveDevices (mgr : Manager) : List String → List Device × Option String
  | [] => ([], none)
  | id :: rest =>
    match mgr.getDevice id with
    | .error m => ([], some m)
    | .ok d =>
      let nxt := resolveDevices mgr rest
      (d :: nxt.1, nxt.2)

/-- `BiometricSyncService.cleanupConnections` in multi-device mode:
`manager.disconnectAll()` over every materialized adapter (errors
ignored) followed by a database disconnect attempt (errors ignored). -/
def cleanupEvents (devs : List Device) : List Event :=
  devs.map (fun d => Event.devDisconnect d.id) ++ [Event.dbDisconnect]

/-- The empty pass-level statistics object (`stats` literal of line 37). -/
def stats0 : Stats := {}

/-- `BiometricSyncService.syncMultipleDevices` (lines 36-120), returning
the pass outcome and the event trace.  Control flow mirrors the source:
resolve the device set (explicit ids via `getDevice`, otherwise
`getAllDevices`), connect the database, run the per-device loop, update
every device's checkpoint when the pass inserted at least one record,
disconnect the database, and return the statistics.  Any rejection inside
the try (resolution, database connect, an escaped `getDeviceInfo`, the
checkpoint loop, the final disconnect) reaches the outer catch, which
pushes a pass-level error entry onto the (then discarded) statistics,
runs `cleanupConnections`, and rethrows. -/
def syncMultipleDevices (mgr : Manager) (sink : Sink) (deviceIds : Option (List String)) :
    Except String Stats × List Event :=
  let resolved := match deviceIds with
    | some ids => resolveDevices mgr ids
    | none => (mgr.getAllDevices, none)
  match resolved.2 with
  | some m => (.error m, cleanupEvents resolved.1)
  | none =>
    let devs := resolved.1
    match sink.connectFail with
    | some m => (.error m, Event.dbConnectFail :: cleanupEvents devs)
    | none =>
      let lp := syncLoop sink devs stats0
      match lp.1 with
      | .error m => (.error m, Event.dbConnect :: lp.2 ++ cleanupEvents devs)
      | .ok st =>
        let up := if st.insertedRecords > 0 then updateAllDevicesLastSync sink devs
          else (.ok (), [])
        match up.1 with
        | .error m => (.error m, Event.dbConnect :: lp.2 ++ up.2 ++ cleanupEvents devs)
        | .ok _ =>
          match sink.disconnectFail with
          | some m =>
            (.error m, Event.dbConnect :: lp.2 ++ up.2 ++ [Event.dbDisconnect] ++ cleanupEvents devs)
          | none => (.ok st, Event.dbConnect :: lp.2 ++ up.2 ++ [Event.dbDisconnect])

/-- `BiometricSyncService.updateDeviceLastSync` (lines 263-267): no
try/catch here — a failure propagates to the caller. -/
def updateDeviceLastSync (sink : Sink) (d : Device) : Except String Unit × List Event :=
  match getDeviceInfoR d with
  | .error m => (.error m, [])
  | .ok info =>
    match sink.updateFail info.id with
    | some m => (.error m, [Event.checkpointFail info.id])
    | none => (.ok (), [Event.checkpoint info.id])

/-- `cleanupConnections` in single-device mode: disconnect the one device
(errors ignored) and attempt a database disconnect (errors ignored). -/
def singleCleanup (d : Device) : List Event :=
  [Event.devDisconnect d.id, Event.dbDisconnect]

/-- `BiometricSyncService.syncSingleDevice` (lines 128-175).  Faithful to
the source order: `syncDeviceData` runs FIRST (line 140) — performing
every `insertTimeRecord` call — and only afterwards is
`databaseAdapter.connect()` awaited (line 143).  Then the checkpoint is
updated when at least one record was inserted, the database is
disconnected, and the per-device statistics object is returned (it has no
per-device breakdown).  Errors reach the catch, which builds a fresh
discarded statistics object, cleans up, and rethrows. -/
def syncSingleDevice (sink : Sink) (d : Device) : Except String DeviceStats × List Event :=
  let sd := syncDeviceData sink d
  match sd.1 with
  | .error m => (.error m, sd.2 ++ singleCleanup d)
  | .ok ds =>
    match sink.connectFail with
    | some m => (.error m, sd.2 ++ [Event.dbConnectFail] ++ singleCleanup d)
    | none =>
      let up := if ds.insertedRecords > 0 then updateDeviceLastSync sink d else (.ok (), [])
      match up.1 with
      | .error m => (.error m, sd.2 ++ [Event.dbConnect] ++ up.2 ++ singleCleanup d)
      | .ok _ =>
        match sink.disconnectFail with
        | some m =>
          (.error m, sd.2 ++ [Event.dbConnect] ++ up.2 ++ [Event.dbDisconnect] ++ singleCleanup d)
        | none => (.ok ds, sd.2 ++ [Event.dbConnect] ++ up.2 ++ [Event.dbDisconnect])

/-- Statement of device-set resolution used by the theorems: the devices
a pass operates on, as determined by `deviceIds` (line 49-56 of the
source). -/
def resolvesTo (mgr : Manager) (deviceIds : Option (List String)) (devs : List Device) : Prop :=
  match deviceIds with
  | some ids => resolveDevices mgr ids = (devs, none)
  | none => devs = mgr.getAllDevices

/-- The per-device statistics recorded for a device by the pass: the
`syncDeviceData` result on success, the zeroed catch-branch object on
failure (lines 87-91). -/
def devResult (sink : Sink) (d : Device) : DeviceStats :=
  match (syncDeviceData sink d).1 with
  | .ok ds => ds
  | .error m => { errors := [{ message := m }] }

/-- The pass-level error entries contributed by one device: the device's
own record errors on success, one tagged entry on failure. -/
def devErrs (sink : Sink) (d : Device) : List ErrEntry :=
  match (syncDeviceData sink d).1 with
  | .ok ds => ds.errors
  | .error m => [{ deviceId := some d.id, message := m, etype := some "device_sync_error" }]

/-- Pure statement of one iteration of the per-device loop. -/
def stepDev (sink : Sink) (st : Stats) (d : Device) : Stats :=
  applyDevOutcome st d.id (syncDeviceData sink d).1

/-- Sum of the per-device `totalRecords` of a statistics map. -/
def sumTotals (m : List (String × DeviceStats)) : Nat :=
  (m.map (fun p => p.2.totalRecords)).sum

/-- Sum of the per-device `insertedRecords` of a statistics map. -/
def sumInserted (m : List (String × DeviceStats)) : Nat :=
  (m.map (fun p => p.2.insertedRecords)).sum

/-- JavaScript code-unit string comparison `a <= b`, lexicographic on the
character sequences (date strings are ASCII, where code-unit order and
code-point order agree). -/
def charListLe : List Char → List Char → Bool
  | [], _ => true
  | _ :: _, [] => false
  | a :: as, b :: bs => if a < b then true else if b < a then false else charListLe as bs

/-- JavaScript `a <= b` on strings. -/
def jsStrLe (a b : String) : Bool := charListLe a.data b.data

/-- JavaScript `record.timeRecord.split(' ')[0]`: the part of the string
before the first space (the whole string when it has no space). -/
def recDateOf (s : String) : String := String.mk (s.data.takeWhile (fun c => c != ' '))

/-- The window filter of `ZKTecoAdapter.getAttendanceData` (part_008
lines 103-113): when both window endpoints are present (formatted to
`YYYY-MM-DD` date strings), keep a formatted record when the date part of
its own `timeRecord` lies between them under JavaScript string
comparison; with a missing endpoint no filtering happens. -/
def filterAttendance (logs : List TimeRec) :
    Option String → Option String → List TimeRec
  | some fromDateStr, some toDateStr =>
    logs.filter (fun record =>
      jsStrLe fromDateStr (recDateOf record.timeRecord) &&
      jsStrLe (recDateOf record.timeRecord) toDateStr)
  | _, _ => logs

/-- One raw entry of the `devices` array of `devices.json`, with the
fields the embedded loader reads; a missing field is `none` / the empty
string. -/
structure RawDevice where
  id : String := ""
  ip : String := ""
  name : Option String := none
  enabled : Option Bool := none
deriving DecidableEq, Repr

/-- The per-entry validation of `Config.loadDevicesFromFile`
(src/src/features/index.js lines 130-151): reject a missing id or ip,
default the name to the id, and default `enabled` to true unless it is
explicitly false. -/
def validateDevice (d : RawDevice) : Except String Device :=
  if d.id = "" then .error "Device is missing required id field"
  else if d.ip = "" then .error ("Device " ++ d.id ++ " is missing required ip field")
  else .ok { id := d.id, ip := d.ip, name := d.name.getD d.id, enabled := d.enabled ≠ some false }

/-- Validation of the whole `devices` array, propagating the first
failure. -/
def validateDevices : List RawDevice → Except String (List Device)
  | [] => .ok []
  | d :: rest =>
    match validateDevice d with
    | .error m => .error m
    | .ok v =>
      match validateDevices rest with
      | .error m => .error m
      | .ok vs => .ok (v :: vs)

/-- `Config.loadDevicesFromFile` (lines 130-157): validate every entry,
then drop the disabled ones — only enabled devices are returned (and
later registered). -/
def loadDevicesFromFile (raws : List RawDevice) : Except String (List Device) :=
  match validateDevices raws with
  | .error m => .error m
  | .ok vs => .ok (vs.filter (fun d => d.enabled))

/-- `BiometricDeviceManager.hasDevice` (part_007 lines 99-101). -/
def Manager.hasDevice (mgr : Manager) (id : String) : Bool :=
  mgr.deviceConfigs.any (fun p => p.1 == id)

/-- Classifier for checkpoint-update events. -/
def isCkEvent : Event → Bool
  | .checkpoint _ => true
  | .checkpointFail _ => true
  | _ => false

/-! Concrete instances used by the per-claim witnesses, counterexamples
and code-evaluation theorems (one family per claim, so each claim's
theorems are self-contained). -/

def recC1 : TimeRec := { employeeNumber := 7, timeRecord := "2024-05-01 08:00:00" }

def devC1a : Device := { id := "A", behavior := { records := [recC1] } }

def devC1b : Device := { id := "B", behavior := { connectFail := some "unreachable" } }

def devC1c : Device := { id := "C" }

def mgrC1 : Manager := { deviceConfigs := [("A", devC1a), ("B", devC1b), ("C", devC1c)] }

def sinkC1 : Sink := {}

def recC2 : TimeRec := { employeeNumber := 3, timeRecord := "2024-05-01 09:00:00" }

def devC2 : Device := { id := "A", behavior := { records := [recC2] } }

def mgrC2 : Manager := { deviceConfigs := [("A", devC2)] }

def sinkC2 : Sink := {}

/-- The pass statistics produced for `deviceIds = ["A","A"]` on `mgrC2`:
top-level totals count device A twice while the per-device map holds a
single entry for it. -/
def stC2dup : Stats :=
  { totalRecords := 2, insertedRecords := 2, errors := []
    deviceStats := [("A", { totalRecords := 1, insertedRecords := 1, errors := [] })] }

def recC3 (n : Nat) : TimeRec := { employeeNumber := n, timeRecord := "2024-05-01 10:00:00" }

def devC3 : Device :=
  { id := "A", behavior := { records := [recC3 1, recC3 2, recC3 3, recC3 4, recC3 5] } }

def sinkC3 : Sink :=
  { insertFail := fun r => if r.employeeNumber == 3 then some "write failed" else none }

def recC4 : TimeRec := { employeeNumber := 1, timeRecord := "2024-05-01 11:00:00" }

def devC4 : Device := { id := "A", behavior := { records := [recC4] } }

def mgrC4 : Manager := { deviceConfigs := [("A", devC4)] }

def sinkC4 : Sink := {}

def recC5 : TimeRec := { employeeNumber := 2, timeRecord := "2024-05-01 12:00:00" }

def devC5a : Device := { id := "A", behavior := { records := [recC5] } }

def devC5b : Device := { id := "B" }

def mgrC5 : Manager := { deviceConfigs := [("A", devC5a), ("B", devC5b)] }

def sinkC5 : Sink := { updateFail := fun id => if id == "B" then some "db down" else none }

def devC6 : Device := { id := "A", behavior := { records := [] } }

def mgrC6 : Manager := { deviceConfigs := [("A", devC6)] }

def sinkC6 : Sink := {}

def recC7 : TimeRec := { employeeNumber := 9, timeRecord := "2024-05-01 13:00:00" }

def devC7 : Device := { id := "A", behavior := { records := [recC7] } }

def sinkC7 : Sink := {}

def recC8 : TimeRec := { employeeNumber := 4, timeRecord := "2024-05-02 23:59:59" }

def rawC9a : RawDevice := { id := "A", ip := "10.0.0.1", enabled := some false }

def rawC9b : RawDevice := { id := "B", ip := "10.0.0.2" }

def recC10 : TimeRec := { employeeNumber := 5, timeRecord := "2024-05-01 14:00:00" }

def devC10a : Device := { id := "A", behavior := { records := [recC10] } }

def devC10b : Device := { id := "B", behavior := { infoFail := some "info failure" } }

def devC10c : Device := { id := "C", behavior := { records := [recC10] } }

def mgrC10 : Manager := { deviceConfigs := [("A", devC10a), ("B", devC10b), ("C", devC10c)] }

def sinkC10 : Sink := {}

/-! Helper lemmas about the record-insertion loop and `syncDeviceData`. -/

/-- Error entry recorded for a record whose write failed. -/
def recErr (r : TimeRec) (m : String) : ErrEntry := { record := some r, message := m }

/-- The statistics component of the insertion loop: `totalRecords` is
untouched, `insertedRecords` counts the records whose write succeeded,
and the error list gains one entry per failed write, carrying the
offending record. -/
theorem insertLoop_fst (sink : Sink) :
    ∀ (rs : List TimeRec) (ds : DeviceStats),
      (insertLoop sink ds rs).1 =
        { totalRecords := ds.totalRecords
          insertedRecords := ds.insertedRecords + rs.countP (fun r => (sink.insertFail r).isNone)
          errors := ds.errors ++ rs.filterMap (fun r => (sink.insertFail r).map (recErr r)) } := by
  intro rs
  induction rs with
  | nil => intro ds; simp [insertLoop]
  | cons r rest ih =>
    intro ds
    cases h : sink.insertFail r with
    | none =>
      simp only [insertLoop, h, ih, List.countP_cons, List.filterMap_cons, h, Option.isNone_none,
        Option.map_none']
      simp [recErr]
      omega
    | some m =>
      simp only [insertLoop, h, ih, List.countP_cons, List.filterMap_cons, h, Option.isNone_some,
        Option.map_some']
      simp [recErr, List.append_assoc]

/-- Every event emitted by the insertion loop is an insert event. -/
theorem insertLoop_snd_shape (sink : Sink) :
    ∀ (rs : List TimeRec) (ds : DeviceStats) (e : Event), e ∈ (insertLoop sink ds rs).2 →
      (∃ r, e = Event.insertOk r) ∨ (∃ r, e = Event.insertFail r) := by
  intro rs
  induction rs with
  | nil => intro ds e h; simp [insertLoop] at h
  | cons r rest ih =>
    intro ds e h
    cases hf : sink.insertFail r with
    | none =>
      rw [insertLoop, hf] at h
      rcases List.mem_cons.mp h with h | h
      · exact .inl ⟨r, h⟩
      · exact ih _ e h
    | some m =>
      rw [insertLoop, hf] at h
      rcases List.mem_cons.mp h with h | h
      · exact .inr ⟨r, h⟩
      · exact ih _ e h

/-- Successful-path characterization of `syncDeviceData`. -/
theorem syncDeviceData_ok (sink : Sink) (d : Device)
    (hc : d.behavior.connectFail = none) (hr : d.behavior.retrieveFail = none)
    (hd : d.behavior.disconnectFail = none) :
    (syncDeviceData sink d).1 = .ok
      { totalRecords := d.behavior.records.length
        insertedRecords := d.behavior.records.countP (fun r => (sink.insertFail r).isNone)
        errors := d.behavior.records.filterMap (fun r => (sink.insertFail r).map (recErr r)) } := by
  simp [syncDeviceData, hc, hr, hd, insertLoop_fst]

/-- The number of error entries of a filterMap over an option-valued
function is the number of elements on which the function is `some`. -/
theorem length_filterMap_opt {α β : Type} (f : α → Option β) :
    ∀ l : List α, (l.filterMap f).length = l.countP (fun a => (f a).isSome) := by
  intro l
  induction l with
  | nil => simp
  | cons a rest ih =>
    cases h : f a with
    | none => simp [List.filterMap_cons, h, List.countP_cons, ih]
    | some b => simp [List.filterMap_cons, h, List.countP_cons, ih]

/-- On a successful `syncDeviceData`, inserted plus failed writes cover
the whole batch, and the inserted count never exceeds the total. -/
theorem syncDeviceData_ok_balance (sink : Sink) (d : Device) (ds : DeviceStats)
    (h : (syncDeviceData sink d).1 = .ok ds) :
    ds.insertedRecords + ds.errors.length = ds.totalRecords ∧
    ds.insertedRecords ≤ ds.totalRecords ∧
    ds.totalRecords = d.behavior.records.length := by
  rw [syncDeviceData] at h
  cases hc : d.behavior.connectFail with
  | some m => rw [hc] at h; cases h
  | none =>
  rw [hc] at h
  cases hr : d.behavior.retrieveFail with
  | some m => rw [hr] at h; cases h
  | none =>
  rw [hr] at h
  cases hdc : d.behavior.disconnectFail with
  | some m => rw [hdc] at h; cases h
  | none =>
  rw [hdc] at h
  simp only [Except.ok.injEq] at h
  subst h
  rw [insertLoop_fst]
  refine ⟨?_, ?_, rfl⟩
  · simp only [List.nil_append, Nat.zero_add, length_filterMap_opt]
    have h2 := List.length_eq_countP_add_countP
      (fun r => (sink.insertFail r).isNone) d.behavior.records
    have h3 : ∀ r : TimeRec,
        (decide ¬((sink.insertFail r).isNone = true)) = ((sink.insertFail r).map (recErr r)).isSome := by
      intro r; cases sink.insertFail r <;> simp
    simp only [h3] at h2
    omega
  · simp only [Nat.zero_add]
    exact List.countP_le_length _

/-- Every error entry recorded by a successful `syncDeviceData` is a
record-level entry: it carries no device id tag. -/
theorem syncDeviceData_ok_errs_untagged (sink : Sink) (d : Device) (ds : DeviceStats)
    (h : (syncDeviceData sink d).1 = .ok ds) :
    ∀ e ∈ ds.errors, e.deviceId = none := by
  rw [syncDeviceData] at h
  cases hc : d.behavior.connectFail with
  | some m => rw [hc] at h; cases h
  | none =>
  rw [hc] at h
  cases hr : d.behavior.retrieveFail with
  | some m => rw [hr] at h; cases h
  | none =>
  rw [hr] at h
  cases hdc : d.behavior.disconnectFail with
  | some m => rw [hdc] at h; cases h
  | none =>
  rw [hdc] at h
  simp only [Except.ok.injEq] at h
  subst h
  rw [insertLoop_fst]
  intro e he
  simp only [List.nil_append, List.mem_filterMap] at he
  obtain ⟨r, _, hr2⟩ := he
  cases hf : sink.insertFail r with
  | none => rw [hf] at hr2; cases hr2
  | some m => rw [hf] at hr2; simp only [Option.map_some', Option.some.injEq] at hr2
              subst hr2; rfl

/-- C3: per-record write failure isolation.  On a device whose connect,
retrieval and disconnect succeed, `syncDeviceData` returns statistics in
which `totalRecords` is the full retrieved count (unchanged by write
failures), `insertedRecords` counts exactly the records whose write
succeeded, the error list holds exactly one entry per failed write
carrying the offending record, and every retrieved record was attempted
(inserted plus failed writes cover the batch). -/
theorem c3_record_failure_isolated (sink : Sink) (d : Device)
    (hc : d.behavior.connectFail = none) (hr : d.behavior.retrieveFail = none)
    (hd : d.behavior.disconnectFail = none) :
    ∃ ds, (syncDeviceData sink d).1 = .ok ds ∧
      ds.totalRecords = d.behavior.records.length ∧
      ds.insertedRecords = d.behavior.records.countP (fun r => (sink.insertFail r).isNone) ∧
      ds.errors = d.behavior.records.filterMap (fun r => (sink.insertFail r).map (recErr r)) ∧
      ds.insertedRecords + ds.errors.length = ds.totalRecords := by
  refine ⟨_, syncDeviceData_ok sink d hc hr hd, rfl, rfl, rfl, ?_⟩
  exact (syncDeviceData_ok_balance sink d _ (syncDeviceData_ok sink d hc hr hd)).1

/-- Witness for C3 at the claim's concrete shape: five retrieved records
of which exactly the third fails to write give totalRecords 5,
insertedRecords 4 and a single error entry carrying record 3. -/
theorem c3_record_failure_isolated_witness :
    ∃ ds, (syncDeviceData sinkC3 devC3).1 = .ok ds ∧
      ds.totalRecords = 5 ∧ ds.insertedRecords = 4 ∧
      ds.errors = [{ record := some (recC3 3), message := "write failed" }] := by
  obtain ⟨ds, h1, h2, h3, h4, _⟩ := c3_record_failure_isolated sinkC3 devC3 rfl rfl rfl
  refine ⟨ds, h1, ?_, ?_, ?_⟩
  · rw [h2]; rfl
  · rw [h3]; decide
  · rw [h4]; decide

/-! Lemmas for the retrieval window filter (C8). -/

/-- JavaScript string comparison is reflexive. -/
theorem charListLe_refl : ∀ l : List Char, charListLe l l = true := by
  intro l
  induction l with
  | nil => rfl
  | cons c rest ih => simp [charListLe, ih]

/-- C8: the window filter of `getAttendanceData` keeps a retrieved record
exactly when the date part of its own `timeRecord` (the portion before
the first space) is lexicographically at least the from-date string and
at most the to-date string, both endpoints included; in particular a
record whose date part equals the to-date string is kept whatever its
time of day. -/
theorem c8_window_filter_inclusive (logs : List TimeRec) (fromDateStr toDateStr : String)
    (r : TimeRec) :
    (r ∈ filterAttendance logs (some fromDateStr) (some toDateStr) ↔
      r ∈ logs ∧ jsStrLe fromDateStr (recDateOf r.timeRecord) = true ∧
        jsStrLe (recDateOf r.timeRecord) toDateStr = true) ∧
    (r ∈ logs → recDateOf r.timeRecord = toDateStr →
      jsStrLe fromDateStr toDateStr = true →
      r ∈ filterAttendance logs (some fromDateStr) (some toDateStr)) := by
  constructor
  · simp [filterAttendance, List.mem_filter, Bool.and_eq_true]
  · intro hmem hdate hle
    rw [jsStrLe] at hle
    simp [filterAttendance, List.mem_filter, Bool.and_eq_true, hmem, hdate, hle, jsStrLe,
      charListLe_refl]

/-- Witness for C8: a record stamped `2024-05-02 23:59:59` is kept by the
window `[2024-05-01, 2024-05-02]` although its time of day is the last
second of the boundary date. -/
theorem c8_window_filter_inclusive_witness :
    recC8 ∈ filterAttendance [recC8] (some "2024-05-01") (some "2024-05-02") := by
  refine (c8_window_filter_inclusive [recC8] "2024-05-01" "2024-05-02" recC8).2 ?_ ?_ ?_
  · decide
  · decide
  · decide

/-- C5: evaluation of the embedded code at a failing input.  Devices A
(one record, inserted) and B (zero records); the checkpoint update for B
fails.  Because `updateAllDevicesLastSync`'s catch block reads the
out-of-scope `deviceInfo`, the pass does not log-and-continue: it throws
`ReferenceError: deviceInfo is not defined` after A's checkpoint was
written and B's update was attempted, so no `SyncResult` is returned —
contradicting the claim that a checkpoint-update error is logged, the
loop proceeds, and the pass still returns its result. -/
theorem c5_checkpoint_catch_raises :
    (syncMultipleDevices mgrC5 sinkC5 none).1 = .error refErrMsg ∧
    Event.checkpoint "A" ∈ (syncMultipleDevices mgrC5 sinkC5 none).2 ∧
    Event.checkpointFail "B" ∈ (syncMultipleDevices mgrC5 sinkC5 none).2 := by
  refine ⟨rfl, ?_, ?_⟩ <;> decide

/-- C7: evaluation of the embedded code at a failing input.  In
single-device mode with one retrieved record and an otherwise healthy
sink, the trace shows the `insertTimeRecord` call happening BEFORE the
sink's `connect` — `syncSingleDevice` runs `syncDeviceData` (line 140)
before `databaseAdapter.connect()` (line 143) — contradicting the claim
that, exactly as in multi-device mode, every record write happens after
the sink connection is opened. -/
theorem c7_single_device_writes_before_sink_connect :
    syncSingleDevice sinkC7 devC7 =
      (.ok { totalRecords := 1, insertedRecords := 1, errors := [] },
       [Event.devConnect "A", Event.retrieve "A" 1, Event.devDisconnect "A",
        Event.insertOk recC7, Event.dbConnect, Event.checkpoint "A", Event.dbDisconnect]) ∧
    ∃ l1 l2, (syncSingleDevice sinkC7 devC7).2 = l1 ++ Event.insertOk recC7 :: l2 ∧
      Event.dbConnect ∈ l2 := by
  refine ⟨rfl, [Event.devConnect "A", Event.retrieve "A" 1, Event.devDisconnect "A"],
    [Event.dbConnect, Event.checkpoint "A", Event.dbDisconnect], rfl, ?_⟩
  decide

/-- C2 counterexample: the claim's sum equality fails on a legal input.
With device A registered once but explicitly requested twice
(`deviceIds = ["A","A"]`), the pass completes and returns top-level
`totalRecords = 2` (A's record is retrieved and inserted twice) while the
per-device map holds a single entry for A with `totalRecords = 1`, so the
top-level total does not equal the sum of the per-device totals. -/
theorem c2_counterexample_duplicate_ids :
    (syncMultipleDevices mgrC2 sinkC2 (some ["A", "A"])).1 = .ok stC2dup ∧
    stC2dup.totalRecords = 2 ∧ sumTotals stC2dup.deviceStats = 1 ∧
    stC2dup.totalRecords ≠ sumTotals stC2dup.deviceStats := by
  refine ⟨rfl, rfl, rfl, ?_⟩
  decide

/-- C9 counterexample: a device endpoint configured with enabled=false is
dropped by `Config.loadDevicesFromFile` BEFORE registration, so after
loading and registering a configuration whose only entry is the disabled
device A, an explicit `getDevice "A"` fails with the unknown-device error
instead of succeeding as the claim states. -/
theorem c9_counterexample_disabled_get_fails :
    ∃ cfgs mgr, loadDevicesFromFile [rawC9a] = .ok cfgs ∧
      Manager.registerDevices {} cfgs = .ok mgr ∧
      mgr.getAllDevices = [] ∧
      mgr.getDevice "A" = .error "Device configuration not found for ID: A" := by
  exact ⟨[], {}, rfl, rfl, rfl, rfl⟩

/-! Characterization of the per-device loop of `syncMultipleDevices` as a
pure fold, and projections of one fold step. -/

theorem stepDev_totalRecords (sink : Sink) (st : Stats) (d : Device) :
    (stepDev sink st d).totalRecords = st.totalRecords + (devResult sink d).totalRecords := by
  rw [stepDev, devResult]
  cases h : (syncDeviceData sink d).1 <;> simp [applyDevOutcome]

theorem stepDev_insertedRecords (sink : Sink) (st : Stats) (d : Device) :
    (stepDev sink st d).insertedRecords = st.insertedRecords + (devResult sink d).insertedRecords := by
  rw [stepDev, devResult]
  cases h : (syncDeviceData sink d).1 <;> simp [applyDevOutcome]

theorem stepDev_errors (sink : Sink) (st : Stats) (d : Device) :
    (stepDev sink st d).errors = st.errors ++ devErrs sink d := by
  rw [stepDev, devErrs]
  cases h : (syncDeviceData sink d).1 <;> simp [applyDevOutcome]

theorem stepDev_deviceStats (sink : Sink) (st : Stats) (d : Device) :
    (stepDev sink st d).deviceStats = setEntry st.deviceStats d.id (devResult sink d) := by
  rw [stepDev, devResult]
  cases h : (syncDeviceData sink d).1 <;> simp [applyDevOutcome]

theorem foldl_stepDev_totalRecords (sink : Sink) :
    ∀ (devs : List Device) (st : Stats),
      (devs.foldl (stepDev sink) st).totalRecords =
        st.totalRecords + (devs.map (fun d => (devResult sink d).totalRecords)).sum := by
  intro devs
  induction devs with
  | nil => intro st; simp
  | cons d rest ih =>
    intro st
    simp only [List.foldl_cons, ih, stepDev_totalRecords, List.map_cons, List.sum_cons]
    omega

theorem foldl_stepDev_insertedRecords (sink : Sink) :
    ∀ (devs : List Device) (st : Stats),
      (devs.foldl (stepDev sink) st).insertedRecords =
        st.insertedRecords + (devs.map (fun d => (devResult sink d).insertedRecords)).sum := by
  intro devs
  induction devs with
  | nil => intro st; simp
  | cons d rest ih =>
    intro st
    simp only [List.foldl_cons, ih, stepDev_insertedRecords, List.map_cons, List.sum_cons]
    omega

theorem foldl_stepDev_errors (sink : Sink) :
    ∀ (devs : List Device) (st : Stats),
      (devs.foldl (stepDev sink) st).errors = st.errors ++ catMap (devErrs sink) devs := by
  intro devs
  induction devs with
  | nil => intro st; simp [catMap]
  | cons d rest ih =>
    intro st
    simp only [List.foldl_cons, ih, stepDev_errors, catMap, List.append_assoc]

/-- Per-device inserted never exceeds per-device total. -/
theorem devResult_le (sink : Sink) (d : Device) :
    (devResult sink d).insertedRecords ≤ (devResult sink d).totalRecords := by
  rw [devResult]
  cases h : (syncDeviceData sink d).1 with
  | error m => simp
  | ok ds => exact (syncDeviceData_ok_balance sink d ds h).2.1

theorem foldl_stepDev_le (sink : Sink) (devs : List Device) (st : Stats)
    (h : st.insertedRecords ≤ st.totalRecords) :
    (devs.foldl (stepDev sink) st).insertedRecords ≤ (devs.foldl (stepDev sink) st).totalRecords := by
  rw [foldl_stepDev_totalRecords, foldl_stepDev_insertedRecords]
  have hs : ((devs.map (fun d => (devResult sink d).insertedRecords)).sum : Nat) ≤
      (devs.map (fun d => (devResult sink d).totalRecords)).sum :=
    List.sum_le_sum (fun d _ => devResult_le sink d)
  omega

theorem setEntry_fresh (m : List (String × DeviceStats)) (k : String) (v : DeviceStats)
    (h : ∀ p ∈ m, p.1 ≠ k) : setEntry m k v = m ++ [(k, v)] := by
  rw [setEntry]
  have ha : m.any (fun p => p.1 == k) = false := by
    rw [List.any_eq_false]
    intro p hp
    simpa using h p hp
  simp [ha]

theorem foldl_stepDev_deviceStats (sink : Sink) :
    ∀ (devs : List Device) (st : Stats),
      (∀ d ∈ devs, ∀ p ∈ st.deviceStats, p.1 ≠ d.id) →
      (devs.map (fun d => d.id)).Nodup →
      (devs.foldl (stepDev sink) st).deviceStats =
        st.deviceStats ++ devs.map (fun d => (d.id, devResult sink d)) := by
  intro devs
  induction devs with
  | nil => intro st _ _; simp
  | cons d rest ih =>
    intro st hfresh hnodup
    have hpair : (∀ x ∈ rest, ¬x.id = d.id) ∧ (rest.map (fun x => x.id)).Nodup := by
      simpa using hnodup
    have hset : (stepDev sink st d).deviceStats = st.deviceStats ++ [(d.id, devResult sink d)] := by
      rw [stepDev_deviceStats]
      exact setEntry_fresh _ _ _ (hfresh d (List.mem_cons_self d rest))
    have hfresh2 : ∀ d2 ∈ rest, ∀ p ∈ (stepDev sink st d).deviceStats, p.1 ≠ d2.id := by
      intro d2 hd2 p hp
      rw [hset] at hp
      rcases List.mem_append.mp hp with hp | hp
      · exact hfresh d2 (List.mem_cons_of_mem d hd2) p hp
      · have hpe : p = (d.id, devResult sink d) := by simpa using hp
        rw [hpe]
        intro hcon
        exact hpair.1 d2 hd2 (by simpa using hcon.symm)
    simp only [List.foldl_cons]
    rw [ih (stepDev sink st d) hfresh2 hpair.2, hset]
    simp [List.append_assoc]

/-- Forward characterization of the per-device loop: when every
`getDeviceInfo` succeeds, the loop completes with the fold of the pure
step over the device list, emitting each device's events in order. -/
theorem syncLoop_eq (sink : Sink) :
    ∀ (devs : List Device) (st : Stats), (∀ d ∈ devs, d.behavior.infoFail = none) →
      syncLoop sink devs st =
        (.ok (devs.foldl (stepDev sink) st),
         catMap (fun d => (syncDeviceData sink d).2) devs) := by
  intro devs
  induction devs with
  | nil => intro st _; simp [syncLoop, catMap]
  | cons d rest ih =>
    intro st h
    have hd : d.behavior.infoFail = none := h d (List.mem_cons_self d rest)
    have hrest : ∀ d2 ∈ rest, d2.behavior.infoFail = none :=
      fun d2 hd2 => h d2 (List.mem_cons_of_mem d hd2)
    simp only [syncLoop, getDeviceInfoR, hd]
    rw [ih _ hrest]
    simp [stepDev, catMap, List.foldl_cons]

/-- Inversion of the per-device loop: a loop completing with `.ok` means
every `getDeviceInfo` succeeded and the result is the pure fold. -/
theorem syncLoop_fst_ok (sink : Sink) :
    ∀ (devs : List Device) (st st2 : Stats), (syncLoop sink devs st).1 = .ok st2 →
      (∀ d ∈ devs, d.behavior.infoFail = none) ∧ st2 = devs.foldl (stepDev sink) st := by
  intro devs
  induction devs with
  | nil =>
    intro st st2 h
    simp only [syncLoop] at h
    exact ⟨by simp, by cases h; rfl⟩
  | cons d rest ih =>
    intro st st2 h
    cases hd : d.behavior.infoFail with
    | some m => simp [syncLoop, getDeviceInfoR, hd] at h
    | none =>
      simp only [syncLoop, getDeviceInfoR, hd] at h
      obtain ⟨hrest, hfold⟩ := ih _ _ h
      refine ⟨?_, ?_⟩
      · intro d2 hd2
        rcases List.mem_cons.mp hd2 with hd2 | hd2
        · rw [hd2]; exact hd
        · exact hrest d2 hd2
      · rw [hfold]; simp [stepDev, List.foldl_cons]

/-- Error path of the per-device loop: a device whose `getDeviceInfo`
rejects makes the loop escape with that rejection after emitting only the
events of the devices before it. -/
theorem syncLoop_infoFail (sink : Sink) (bad : Device) (post : List Device) (m : String)
    (hbad : bad.behavior.infoFail = some m) :
    ∀ (pre : List Device) (st : Stats), (∀ d ∈ pre, d.behavior.infoFail = none) →
      syncLoop sink (pre ++ bad :: post) st =
        (.error m, catMap (fun d => (syncDeviceData sink d).2) pre) := by
  intro pre
  induction pre with
  | nil =>
    intro st _
    simp [syncLoop, getDeviceInfoR, hbad, catMap]
  | cons d rest ih =>
    intro st h
    have hd : d.behavior.infoFail = none := h d (List.mem_cons_self d rest)
    have hrest : ∀ d2 ∈ rest, d2.behavior.infoFail = none :=
      fun d2 hd2 => h d2 (List.mem_cons_of_mem d hd2)
    simp only [List.cons_append, syncLoop, getDeviceInfoR, hd, List.append_eq]
    rw [ih _ hrest]
    simp [catMap]

/-! Lemmas about the checkpoint-update loop. -/

/-- When every `getDeviceInfo` and every checkpoint update succeeds, the
checkpoint loop completes and writes one checkpoint per device, in
order. -/
theorem updateAll_ok (sink : Sink) :
    ∀ devs : List Device, (∀ d ∈ devs, d.behavior.infoFail = none) →
      (∀ d ∈ devs, sink.updateFail d.id = none) →
      updateAllDevicesLastSync sink devs =
        (.ok (), devs.map (fun d => Event.checkpoint d.id)) := by
  intro devs
  induction devs with
  | nil => intro _ _; simp [updateAllDevicesLastSync]
  | cons d rest ih =>
    intro hinfo hupd
    have hd : d.behavior.infoFail = none := hinfo d (List.mem_cons_self d rest)
    have hu : sink.updateFail d.id = none := hupd d (List.mem_cons_self d rest)
    simp only [updateAllDevicesLastSync, getDeviceInfoR, hd, hu]
    rw [ih (fun d2 hd2 => hinfo d2 (List.mem_cons_of_mem d hd2))
        (fun d2 hd2 => hupd d2 (List.mem_cons_of_mem d hd2))]
    simp [List.map_cons]

/-- Inversion of the checkpoint loop: when it completes, every device of
the pass received a checkpoint write, recorded in its event list. -/
theorem updateAll_fst_ok (sink : Sink) :
    ∀ devs : List Device, (updateAllDevicesLastSync sink devs).1 = .ok () →
      (updateAllDevicesLastSync sink devs).2 = devs.map (fun d => Event.checkpoint d.id) := by
  intro devs
  induction devs with
  | nil => intro _; simp [updateAllDevicesLastSync]
  | cons d rest ih =>
    intro h
    cases hd : d.behavior.infoFail with
    | some m => simp [updateAllDevicesLastSync, getDeviceInfoR, hd] at h
    | none =>
      cases hu : sink.updateFail d.id with
      | some m => simp [updateAllDevicesLastSync, getDeviceInfoR, hd, hu] at h
      | none =>
        simp only [updateAllDevicesLastSync, getDeviceInfoR, hd, hu] at h ⊢
        rw [ih h]
        simp [List.map_cons]

/-! Lemmas about explicit-id resolution and the registry. -/

/-- A successful `getDevice` implies the id is registered. -/
theorem getDevice_ok_hasDevice (mgr : Manager) (id : String) (d : Device)
    (h : mgr.getDevice id = .ok d) : mgr.hasDevice id = true := by
  rw [Manager.getDevice] at h
  cases hf : mgr.deviceConfigs.find? (fun p => p.1 == id) with
  | none => rw [hf] at h; cases h
  | some p =>
    rw [Manager.hasDevice, List.any_eq_true]
    exact ⟨p, List.mem_of_find?_eq_some hf,
      @List.find?_some _ (fun q => q.1 == id) p _ hf⟩

/-- Resolving an explicit id list containing an unregistered id fails:
`map` over `getDevice` throws at the first unknown id. -/
theorem resolveDevices_unknown (mgr : Manager) :
    ∀ (ids : List String) (id : String), id ∈ ids → mgr.hasDevice id = false →
      ∃ pre m, resolveDevices mgr ids = (pre, some m) := by
  intro ids
  induction ids with
  | nil => intro id h; cases h
  | cons i rest ih =>
    intro id hmem hno
    cases hg : mgr.getDevice i with
    | error m =>
      exact ⟨[], m, by simp [resolveDevices, hg]⟩
    | ok d =>
      rcases List.mem_cons.mp hmem with hmem | hmem
      · rw [hmem] at hno
        rw [getDevice_ok_hasDevice mgr i d hg] at hno
        cases hno
      · obtain ⟨pre, m, hres⟩ := ih id hmem hno
        exact ⟨d :: pre, m, by simp [resolveDevices, hg, hres]⟩

/-! Top-level characterizations of `syncMultipleDevices`. -/

/-- The device set a pass resolves to is uniquely determined. -/
theorem resolvesTo_unique (mgr : Manager) (dids : Option (List String))
    (a b : List Device) (ha : resolvesTo mgr dids a) (hb : resolvesTo mgr dids b) : a = b := by
  cases dids with
  | none => rw [resolvesTo] at ha hb; rw [ha, hb]
  | some ids =>
    rw [resolvesTo] at ha hb
    have := ha.symm.trans hb
    exact congrArg Prod.fst this

/-- Forward characterization of a healthy pass: with all device infos
available, a healthy sink, and all checkpoint updates succeeding, the
pass completes with the fold of the per-device step, and its trace is the
database connect, each device's events in order, the checkpoint writes
(exactly when at least one record was inserted), and the database
disconnect. -/
theorem smd_ok (mgr : Manager) (sink : Sink) (dids : Option (List String)) (devs : List Device)
    (hres : resolvesTo mgr dids devs)
    (hinfo : ∀ d ∈ devs, d.behavior.infoFail = none)
    (hsc : sink.connectFail = none) (hsd : sink.disconnectFail = none)
    (hupd : ∀ d ∈ devs, sink.updateFail d.id = none) :
    syncMultipleDevices mgr sink dids =
      (.ok (devs.foldl (stepDev sink) stats0),
       Event.dbConnect :: catMap (fun d => (syncDeviceData sink d).2) devs
         ++ (if (devs.foldl (stepDev sink) stats0).insertedRecords > 0
             then devs.map (fun d => Event.checkpoint d.id) else [])
         ++ [Event.dbDisconnect]) := by
  have hmain : ∀ mdevs : List Device, mdevs = devs →
      (match sink.connectFail with
        | some m => (Except.error m, Event.dbConnectFail :: cleanupEvents mdevs)
        | none =>
          let lp := syncLoop sink mdevs stats0
          match lp.1 with
          | .error m => (.error m, Event.dbConnect :: lp.2 ++ cleanupEvents mdevs)
          | .ok st =>
            let up := if st.insertedRecords > 0 then updateAllDevicesLastSync sink mdevs
              else (.ok (), [])
            match up.1 with
            | .error m => (.error m, Event.dbConnect :: lp.2 ++ up.2 ++ cleanupEvents mdevs)
            | .ok _ =>
              match sink.disconnectFail with
              | some m =>
                (.error m,
                 Event.dbConnect :: lp.2 ++ up.2 ++ [Event.dbDisconnect] ++ cleanupEvents mdevs)
              | none => (.ok st, Event.dbConnect :: lp.2 ++ up.2 ++ [Event.dbDisconnect])) =
      (.ok (devs.foldl (stepDev sink) stats0),
       Event.dbConnect :: catMap (fun d => (syncDeviceData sink d).2) devs
         ++ (if (devs.foldl (stepDev sink) stats0).insertedRecords > 0
             then devs.map (fun d => Event.checkpoint d.id) else [])
         ++ [Event.dbDisconnect]) := by
    intro mdevs hm
    subst hm
    rw [hsc]
    simp only
    rw [syncLoop_eq sink mdevs stats0 hinfo]
    simp only
    by_cases hgt : (mdevs.foldl (stepDev sink) stats0).insertedRecords > 0
    · rw [if_pos hgt, updateAll_ok sink mdevs hinfo hupd]
      simp only [hsd]
      rw [if_pos hgt]
    · rw [if_neg hgt]
      simp only [hsd]
      rw [if_neg hgt]
  cases dids with
  | none =>
    rw [resolvesTo] at hres
    rw [syncMultipleDevices]
    simp only
    exact hmain mgr.getAllDevices hres.symm
  | some ids =>
    rw [resolvesTo] at hres
    rw [syncMultipleDevices]
    simp only [hres]
    exact hmain devs rfl

/-- Inversion of a completed pass: a pass that returns `.ok` resolved its
device set, had every `getDeviceInfo` succeed, produced the fold of the
per-device step as its statistics, and its trace consists of the database
connect, the devices' events, the checkpoint segment — empty exactly when
nothing was inserted, one checkpoint per device otherwise — and the
database disconnect. -/
theorem smd_ok_inv (mgr : Manager) (sink : Sink) (dids : Option (List String)) (st : Stats)
    (tr : List Event) (h : syncMultipleDevices mgr sink dids = (.ok st, tr)) :
    ∃ devs uevs, resolvesTo mgr dids devs ∧
      (∀ d ∈ devs, d.behavior.infoFail = none) ∧
      st = devs.foldl (stepDev sink) stats0 ∧
      tr = Event.dbConnect :: catMap (fun d => (syncDeviceData sink d).2) devs
           ++ uevs ++ [Event.dbDisconnect] ∧
      ((st.insertedRecords = 0 ∧ uevs = []) ∨
       (0 < st.insertedRecords ∧ uevs = devs.map (fun d => Event.checkpoint d.id))) := by
  have hstep : ∀ devs : List Device, resolvesTo mgr dids devs →
      (match sink.connectFail with
        | some m => (Except.error m, Event.dbConnectFail :: cleanupEvents devs)
        | none =>
          let lp := syncLoop sink devs stats0
          match lp.1 with
          | .error m => (.error m, Event.dbConnect :: lp.2 ++ cleanupEvents devs)
          | .ok st1 =>
            let up := if st1.insertedRecords > 0 then updateAllDevicesLastSync sink devs
              else (.ok (), [])
            match up.1 with
            | .error m => (.error m, Event.dbConnect :: lp.2 ++ up.2 ++ cleanupEvents devs)
            | .ok _ =>
              match sink.disconnectFail with
              | some m =>
                (.error m,
                 Event.dbConnect :: lp.2 ++ up.2 ++ [Event.dbDisconnect] ++ cleanupEvents devs)
              | none => (.ok st1, Event.dbConnect :: lp.2 ++ up.2 ++ [Event.dbDisconnect])) =
        (.ok st, tr) →
      ∃ devs2 uevs, resolvesTo mgr dids devs2 ∧
        (∀ d ∈ devs2, d.behavior.infoFail = none) ∧
        st = devs2.foldl (stepDev sink) stats0 ∧
        tr = Event.dbConnect :: catMap (fun d => (syncDeviceData sink d).2) devs2
             ++ uevs ++ [Event.dbDisconnect] ∧
        ((st.insertedRecords = 0 ∧ uevs = []) ∨
         (0 < st.insertedRecords ∧ uevs = devs2.map (fun d => Event.checkpoint d.id))) := by
    intro devs hres hm
    cases hc : sink.connectFail with
    | some m => rw [hc] at hm; cases hm
    | none =>
    rw [hc] at hm
    simp only at hm
    cases hlp : syncLoop sink devs stats0 with
    | mk lres levs =>
    rw [hlp] at hm
    cases lres with
    | error m => cases hm
    | ok st1 =>
    have hlp1 : (syncLoop sink devs stats0).1 = .ok st1 := by rw [hlp]
    obtain ⟨hinfo, hst1⟩ := syncLoop_fst_ok sink devs stats0 st1 hlp1
    have hlevs : levs = catMap (fun d => (syncDeviceData sink d).2) devs := by
      have := syncLoop_eq sink devs stats0 hinfo
      rw [hlp] at this
      exact (Prod.mk.injEq _ _ _ _).mp this |>.2
    simp only at hm
    by_cases hgt : st1.insertedRecords > 0
    · rw [if_pos hgt] at hm
      cases hup : updateAllDevicesLastSync sink devs with
      | mk ur uevs0 =>
      rw [hup] at hm
      cases ur with
      | error m => cases hm
      | ok u =>
      cases hsd : sink.disconnectFail with
      | some m => rw [hsd] at hm; cases hm
      | none =>
      rw [hsd] at hm
      have hst : st = st1 := by
        have := (Prod.mk.injEq _ _ _ _).mp hm |>.1
        cases this; rfl
      have htr : tr = Event.dbConnect :: levs ++ uevs0 ++ [Event.dbDisconnect] := by
        have := (Prod.mk.injEq _ _ _ _).mp hm |>.2
        rw [this]
      have huevs : uevs0 = devs.map (fun d => Event.checkpoint d.id) := by
        have h1 : (updateAllDevicesLastSync sink devs).1 = .ok () := by rw [hup]
        have := updateAll_fst_ok sink devs h1
        rw [hup] at this
        exact this
      refine ⟨devs, uevs0, hres, hinfo, by rw [hst, hst1], by rw [htr, hlevs], ?_⟩
      exact .inr ⟨by rw [hst]; exact hgt, huevs⟩
    · rw [if_neg hgt] at hm
      simp only at hm
      cases hsd : sink.disconnectFail with
      | some m => rw [hsd] at hm; cases hm
      | none =>
      rw [hsd] at hm
      have hst : st = st1 := by
        have := (Prod.mk.injEq _ _ _ _).mp hm |>.1
        cases this; rfl
      have htr : tr = Event.dbConnect :: levs ++ [] ++ [Event.dbDisconnect] := by
        have := (Prod.mk.injEq _ _ _ _).mp hm |>.2
        rw [this]
      refine ⟨devs, [], hres, hinfo, by rw [hst, hst1], by rw [htr, hlevs], ?_⟩
      exact .inl ⟨by rw [hst]; omega, rfl⟩
  cases dids with
  | none =>
    rw [syncMultipleDevices] at h
    simp only at h
    exact hstep mgr.getAllDevices (by rw [resolvesTo]) h
  | some ids =>
    rw [syncMultipleDevices] at h
    simp only at h
    cases hr : resolveDevices mgr ids with
    | mk devs0 rerr =>
    rw [hr] at h
    cases rerr with
    | some m => cases h
    | none => exact hstep devs0 (by rw [resolvesTo, hr]) h

/-- Inversion of a completed single-device pass: its returned statistics
object is exactly the `syncDeviceData` result. -/
theorem syncSingle_ok_inv (sink : Sink) (d : Device) (st : DeviceStats) (tr : List Event)
    (h : syncSingleDevice sink d = (.ok st, tr)) : (syncDeviceData sink d).1 = .ok st := by
  rw [syncSingleDevice] at h
  simp only at h
  cases hsd : (syncDeviceData sink d).1 with
  | error m => rw [hsd] at h; cases h
  | ok ds =>
  rw [hsd] at h
  cases hc : sink.connectFail with
  | some m => rw [hc] at h; cases h
  | none =>
  rw [hc] at h
  simp only at h
  by_cases hgt : ds.insertedRecords > 0
  · rw [if_pos hgt] at h
    cases hud : updateDeviceLastSync sink d with
    | mk ur uevs =>
    rw [hud] at h
    cases ur with
    | error m => cases h
    | ok u =>
    cases hdd : sink.disconnectFail with
    | some m => rw [hdd] at h; cases h
    | none =>
    rw [hdd] at h
    exact ((Prod.mk.injEq _ _ _ _).mp h).1
  · rw [if_neg hgt] at h
    simp only at h
    cases hdd : sink.disconnectFail with
    | some m => rw [hdd] at h; cases h
    | none =>
    rw [hdd] at h
    exact ((Prod.mk.injEq _ _ _ _).mp h).1

/-- C2 (amended): for every completed pass, `insertedRecords` never
exceeds `totalRecords` (multi-device and single-device alike); and when
the resolved device list contains no duplicate ids — always the case when
`deviceIds` is omitted, since the registry is keyed by id — the top-level
`totalRecords` and `insertedRecords` equal the sums of the per-device
values.  (The duplicate-id proviso is forced by the counterexample: an
explicit `deviceIds` list naming the same device twice double-counts the
top-level totals while the per-device map keeps a single entry.) -/
theorem c2_aggregation_invariant_amended :
    (∀ (mgr : Manager) (sink : Sink) (dids : Option (List String)) (st : Stats)
      (tr : List Event), syncMultipleDevices mgr sink dids = (.ok st, tr) →
        st.insertedRecords ≤ st.totalRecords ∧
        (∀ devs : List Device, resolvesTo mgr dids devs →
          (devs.map (fun d => d.id)).Nodup →
          st.totalRecords = sumTotals st.deviceStats ∧
          st.insertedRecords = sumInserted st.deviceStats)) ∧
    (∀ (sink : Sink) (d : Device) (ds : DeviceStats) (tr : List Event),
      syncSingleDevice sink d = (.ok ds, tr) → ds.insertedRecords ≤ ds.totalRecords) := by
  constructor
  · intro mgr sink dids st tr h
    obtain ⟨devs, uevs, hres, hinfo, hst, htr, hdisj⟩ := smd_ok_inv mgr sink dids st tr h
    constructor
    · rw [hst]
      exact foldl_stepDev_le sink devs stats0 (Nat.le_refl 0)
    · intro devs2 hres2 hnodup
      have hdevs : devs2 = devs := resolvesTo_unique mgr dids devs2 devs hres2 hres
      subst hdevs
      have hds : (devs2.foldl (stepDev sink) stats0).deviceStats =
          stats0.deviceStats ++ devs2.map (fun d => (d.id, devResult sink d)) :=
        foldl_stepDev_deviceStats sink devs2 stats0
          (fun d _ p hp => (List.not_mem_nil p hp).elim) hnodup
      constructor
      · rw [hst, foldl_stepDev_totalRecords, hds]
        simp only [sumTotals, stats0, List.nil_append, Nat.zero_add, List.map_map]
        rfl
      · rw [hst, foldl_stepDev_insertedRecords, hds]
        simp only [sumInserted, stats0, List.nil_append, Nat.zero_add, List.map_map]
        rfl
  · intro sink d ds tr h
    exact (syncDeviceData_ok_balance sink d ds (syncSingle_ok_inv sink d ds tr h)).2.1

/-- Witness for the amended C2, applying it to a completed one-device
pass (invariant and sums) and to the duplicate-id pass (invariant). -/
theorem c2_aggregation_invariant_amended_witness :
    (⟨1, 1, [], [("A", ⟨1, 1, []⟩)]⟩ : Stats).totalRecords =
      sumTotals (⟨1, 1, [], [("A", ⟨1, 1, []⟩)]⟩ : Stats).deviceStats ∧
    stC2dup.insertedRecords ≤ stC2dup.totalRecords := by
  constructor
  · exact ((c2_aggregation_invariant_amended.1 mgrC2 sinkC2 none _ _ rfl).2
      [devC2] rfl (by decide)).1
  · exact (c2_aggregation_invariant_amended.1 mgrC2 sinkC2 (some ["A", "A"])
      stC2dup _ rfl).1

/-! Event-shape lemmas used by the trace-ordering claims. -/

theorem mem_catMap {α β : Type} (f : α → List β) :
    ∀ (l : List α) (e : β), e ∈ catMap f l → ∃ a ∈ l, e ∈ f a := by
  intro l
  induction l with
  | nil => intro e h; cases h
  | cons a rest ih =>
    intro e h
    rcases List.mem_append.mp h with h | h
    · exact ⟨a, List.mem_cons_self a rest, h⟩
    · obtain ⟨a2, ha2, he⟩ := ih e h
      exact ⟨a2, List.mem_cons_of_mem a ha2, he⟩

theorem catMap_append {α β : Type} (f : α → List β) :
    ∀ l1 l2 : List α, catMap f (l1 ++ l2) = catMap f l1 ++ catMap f l2 := by
  intro l1 l2
  induction l1 with
  | nil => simp [catMap]
  | cons a rest ih => simp [catMap, ih]

/-- No event of `syncDeviceData` is a checkpoint event. -/
theorem syncDeviceData_no_ck (sink : Sink) (d : Device) :
    ∀ e ∈ (syncDeviceData sink d).2, isCkEvent e = false := by
  intro e he
  rw [syncDeviceData] at he
  cases hc : d.behavior.connectFail with
  | some m =>
    rw [hc] at he
    simp only [List.mem_cons, List.not_mem_nil, or_false] at he
    rcases he with rfl | rfl <;> rfl
  | none =>
  rw [hc] at he
  cases hr : d.behavior.retrieveFail with
  | some m =>
    rw [hr] at he
    simp only [List.mem_cons, List.not_mem_nil, or_false] at he
    rcases he with rfl | rfl <;> rfl
  | none =>
  rw [hr] at he
  cases hdc : d.behavior.disconnectFail with
  | some m =>
    rw [hdc] at he
    simp only [List.mem_cons, List.not_mem_nil, or_false] at he
    rcases he with rfl | rfl | rfl | rfl <;> rfl
  | none =>
  rw [hdc] at he
  simp only at he
  rcases List.mem_append.mp he with he | he
  · simp only [List.mem_cons, List.not_mem_nil, or_false] at he
    rcases he with rfl | rfl | rfl <;> rfl
  · rcases insertLoop_snd_shape sink _ _ e he with ⟨r, hr2⟩ | ⟨r, hr2⟩ <;> rw [hr2] <;> rfl

/-- A device-connect event inside `syncDeviceData`'s trace names that
device's id. -/
theorem syncDeviceData_devConnect (sink : Sink) (d : Device) (x : String)
    (he : Event.devConnect x ∈ (syncDeviceData sink d).2) : x = d.id := by
  rw [syncDeviceData] at he
  cases hc : d.behavior.connectFail with
  | some m =>
    rw [hc] at he
    simp at he
  | none =>
  rw [hc] at he
  cases hr : d.behavior.retrieveFail with
  | some m =>
    rw [hr] at he
    simpa using he
  | none =>
  rw [hr] at he
  cases hdc : d.behavior.disconnectFail with
  | some m =>
    rw [hdc] at he
    simpa using he
  | none =>
  rw [hdc] at he
  simp only at he
  rcases List.mem_append.mp he with he | he
  · simpa using he
  · rcases insertLoop_snd_shape sink _ _ _ he with ⟨r, hr2⟩ | ⟨r, hr2⟩ <;> cases hr2

/-- C4: checkpoint gating.  For every completed multi-device pass over a
resolved device set: a pass with zero inserted records performs no
checkpoint update at all (its trace holds no checkpoint event); when at
least one record was inserted, a checkpoint write is recorded for every
device that was part of the pass (including devices that inserted zero
records); and conversely any checkpoint activity in the trace implies the
pass inserted at least one record. -/
theorem c4_checkpoint_gating (mgr : Manager) (sink : Sink) (dids : Option (List String))
    (st : Stats) (tr : List Event) (devs : List Device)
    (h : syncMultipleDevices mgr sink dids = (.ok st, tr))
    (hres : resolvesTo mgr dids devs) :
    (st.insertedRecords = 0 → ∀ e ∈ tr, isCkEvent e = false) ∧
    (0 < st.insertedRecords → ∀ d ∈ devs, Event.checkpoint d.id ∈ tr) ∧
    ((∃ e ∈ tr, isCkEvent e = true) → 0 < st.insertedRecords) := by
  obtain ⟨devs0, uevs, hres0, hinfo, hst, htr, hdisj⟩ := smd_ok_inv mgr sink dids st tr h
  have hdevs : devs = devs0 := resolvesTo_unique mgr dids devs devs0 hres hres0
  subst hdevs
  have hnock : st.insertedRecords = 0 → ∀ e ∈ tr, isCkEvent e = false := by
    intro hz e he
    have huevs : uevs = [] := by
      rcases hdisj with ⟨_, h2⟩ | ⟨h1, _⟩
      · exact h2
      · omega
    rw [htr, huevs] at he
    rcases List.mem_cons.mp he with rfl | he
    · rfl
    rcases List.mem_append.mp he with he | he
    · rcases List.mem_append.mp he with he | he
      · obtain ⟨d, _, hed⟩ := mem_catMap _ devs e he
        exact syncDeviceData_no_ck sink d e hed
      · cases he
    · simp only [List.mem_cons, List.not_mem_nil, or_false] at he
      rw [he]; rfl
  refine ⟨hnock, ?_, ?_⟩
  · intro hpos d hd
    have huevs : uevs = devs.map (fun d2 => Event.checkpoint d2.id) := by
      rcases hdisj with ⟨h1, _⟩ | ⟨_, h2⟩
      · omega
      · exact h2
    rw [htr, huevs]
    refine List.mem_cons_of_mem _ (List.mem_append.mpr (.inl (List.mem_append.mpr (.inr ?_))))
    exact List.mem_map_of_mem _ hd
  · intro ⟨e, he, hck⟩
    rcases Nat.eq_zero_or_pos st.insertedRecords with hz | hp
    · rw [hnock hz e he] at hck; cases hck
    · exact hp

/-- Witness for C4: on a one-device pass that inserts one record, the
returned statistics count one insertion and the trace records the
device's checkpoint write. -/
theorem c4_checkpoint_gating_witness :
    Event.checkpoint "A" ∈
      [Event.dbConnect, Event.devConnect "A", Event.retrieve "A" 1, Event.devDisconnect "A",
       Event.insertOk recC4, Event.checkpoint "A", Event.dbDisconnect] := by
  refine (c4_checkpoint_gating mgrC4 sinkC4 none ⟨1, 1, [], [("A", ⟨1, 1, []⟩)]⟩
    [Event.dbConnect, Event.devConnect "A", Event.retrieve "A" 1, Event.devDisconnect "A",
     Event.insertOk recC4, Event.checkpoint "A", Event.dbDisconnect]
    [devC4] rfl rfl).2.1 (by decide) devC4 ?_
  exact List.mem_cons_self devC4 []

/-- Lookup in a statistics map built from a duplicate-free device list
finds each device's entry. -/
theorem getEntry_map (sink : Sink) :
    ∀ (devs : List Device) (d : Device), (devs.map (fun x => x.id)).Nodup → d ∈ devs →
      getEntry (devs.map (fun x => (x.id, devResult sink x))) d.id = some (devResult sink d) := by
  intro devs
  induction devs with
  | nil => intro d _ hd; cases hd
  | cons x rest ih =>
    intro d hnodup hd
    have hpair : (∀ y ∈ rest, ¬y.id = x.id) ∧ (rest.map (fun y => y.id)).Nodup := by
      simpa using hnodup
    rcases List.mem_cons.mp hd with rfl | hd
    · simp [getEntry, List.find?]
    · have hne : (x.id == d.id) = false := by
        have := hpair.1 d hd
        simp only [beq_eq_false_iff_ne, ne_eq]
        intro hcon
        exact this hcon.symm
      have := ih d hpair.2 hd
      simp only [getEntry, List.map_cons, List.find?] at this ⊢
      rw [hne]
      exact this

/-- Each pass-level error entry contributed by a device either carries no
device tag (a record-level write error) or is tagged with that device's
own id. -/
theorem devErrs_deviceId (sink : Sink) (d : Device) :
    ∀ e ∈ devErrs sink d, e.deviceId = none ∨ e.deviceId = some d.id := by
  intro e he
  rw [devErrs] at he
  cases hr : (syncDeviceData sink d).1 with
  | ok ds =>
    rw [hr] at he
    exact .inl (syncDeviceData_ok_errs_untagged sink d ds hr e he)
  | error m =>
    rw [hr] at he
    have : e = { deviceId := some d.id, message := m, etype := some "device_sync_error" } := by
      simpa using he
    rw [this]
    exact .inr rfl

/-- A device whose id differs from `bid` contributes no error entry
tagged `bid`. -/
theorem devErrs_countP_ne (sink : Sink) (d : Device) (bid : String) (hne : d.id ≠ bid) :
    (devErrs sink d).countP (fun e => e.deviceId == some bid) = 0 := by
  rw [List.countP_eq_zero]
  intro e he
  rcases devErrs_deviceId sink d e he with h | h <;> rw [h] <;> simp
  exact fun hcon => hne hcon

theorem catMap_countP_zero (sink : Sink) (bid : String) :
    ∀ l : List Device, (∀ d ∈ l, d.id ≠ bid) →
      (catMap (devErrs sink) l).countP (fun e => e.deviceId == some bid) = 0 := by
  intro l
  induction l with
  | nil => intro _; rfl
  | cons d rest ih =>
    intro hne
    simp only [catMap, List.countP_append]
    rw [devErrs_countP_ne sink d bid (hne d (List.mem_cons_self d rest)),
      ih (fun d2 hd2 => hne d2 (List.mem_cons_of_mem d hd2))]

/-- C1: per-device failure isolation.  For a resolved device set
`pre ++ bad :: post` in which `bad`'s `syncDeviceData` rejects while the
pass is otherwise healthy, the pass completes with a `SyncResult` rather
than throwing; the result carries exactly one error entry tagged with the
failing device's id; the failing device's per-device entry is zeroed
(contributing nothing to the totals, which equal the sums over the other
devices only); and every subsequent device was still attempted (it has a
per-device entry in the result). -/
theorem c1_device_failure_isolated (mgr : Manager) (sink : Sink) (dids : Option (List String))
    (pre : List Device) (bad : Device) (post : List Device) (msg : String)
    (hres : resolvesTo mgr dids (pre ++ bad :: post))
    (hinfo : ∀ d ∈ pre ++ bad :: post, d.behavior.infoFail = none)
    (hnodup : ((pre ++ bad :: post).map (fun d => d.id)).Nodup)
    (hbad : (syncDeviceData sink bad).1 = .error msg)
    (hsc : sink.connectFail = none) (hsd : sink.disconnectFail = none)
    (hupd : ∀ d ∈ pre ++ bad :: post, sink.updateFail d.id = none) :
    ∃ st tr, syncMultipleDevices mgr sink dids = (.ok st, tr) ∧
      st.errors.countP (fun e => e.deviceId == some bad.id) = 1 ∧
      getEntry st.deviceStats bad.id =
        some { totalRecords := 0, insertedRecords := 0, errors := [{ message := msg }] } ∧
      (∀ d ∈ post, (getEntry st.deviceStats d.id).isSome = true) ∧
      st.totalRecords = ((pre ++ post).map (fun d => (devResult sink d).totalRecords)).sum ∧
      st.insertedRecords =
        ((pre ++ post).map (fun d => (devResult sink d).insertedRecords)).sum := by
  have hmid : (bad.id :: (pre.map (fun d => d.id) ++ post.map (fun d => d.id))).Nodup := by
    refine List.nodup_middle.mp ?_
    simpa using hnodup
  have hnotin : bad.id ∉ pre.map (fun d => d.id) ++ post.map (fun d => d.id) :=
    (List.nodup_cons.mp hmid).1
  have hpre_ne : ∀ d ∈ pre, d.id ≠ bad.id := by
    intro d hd hcon
    refine hnotin (List.mem_append.mpr (.inl ?_))
    rw [hcon.symm]
    exact List.mem_map_of_mem _ hd
  have hpost_ne : ∀ d ∈ post, d.id ≠ bad.id := by
    intro d hd hcon
    refine hnotin (List.mem_append.mpr (.inr ?_))
    rw [hcon.symm]
    exact List.mem_map_of_mem _ hd
  have hbadres : devResult sink bad =
      { totalRecords := 0, insertedRecords := 0, errors := [{ message := msg }] } := by
    rw [devResult, hbad]
  have hdstats : ((pre ++ bad :: post).foldl (stepDev sink) stats0).deviceStats =
      (pre ++ bad :: post).map (fun d => (d.id, devResult sink d)) := by
    rw [foldl_stepDev_deviceStats sink (pre ++ bad :: post) stats0
      (fun d _ p hp => (List.not_mem_nil p hp).elim) hnodup]
    rfl
  have heq := smd_ok mgr sink dids (pre ++ bad :: post) hres hinfo hsc hsd hupd
  refine ⟨_, _, heq, ?_, ?_, ?_, ?_, ?_⟩
  · rw [foldl_stepDev_errors]
    have h0 : stats0.errors = [] := rfl
    rw [h0, List.nil_append, catMap_append]
    simp only [catMap, List.countP_append]
    rw [catMap_countP_zero sink bad.id pre hpre_ne,
      catMap_countP_zero sink bad.id post hpost_ne]
    have hde : devErrs sink bad =
        [{ deviceId := some bad.id, message := msg, etype := some "device_sync_error" }] := by
      rw [devErrs, hbad]
    rw [hde]
    simp [List.countP_cons]
  · rw [hdstats, getEntry_map sink (pre ++ bad :: post) bad hnodup
      (List.mem_append.mpr (.inr (List.mem_cons_self bad post))), hbadres]
  · intro d hd
    rw [hdstats, getEntry_map sink (pre ++ bad :: post) d hnodup
      (List.mem_append.mpr (.inr (List.mem_cons_of_mem bad hd)))]
    rfl
  · rw [foldl_stepDev_totalRecords]
    have h0 : stats0.totalRecords = 0 := rfl
    rw [h0, List.map_append, List.map_cons, List.sum_append, List.sum_cons]
    have hz : (devResult sink bad).totalRecords = 0 := by rw [hbadres]
    rw [hz, List.map_append, List.sum_append]
    omega
  · rw [foldl_stepDev_insertedRecords]
    have h0 : stats0.insertedRecords = 0 := rfl
    rw [h0, List.map_append, List.map_cons, List.sum_append, List.sum_cons]
    have hz : (devResult sink bad).insertedRecords = 0 := by rw [hbadres]
    rw [hz, List.map_append, List.sum_append]
    omega

/-- Witness for C1 on the concrete registry `{A: one record, B: fails to
connect, C: zero records}`: the pass completes; exactly one error entry
is tagged `B`; B's sub-result is zeroed; C (after B) was attempted; the
totals come from A and C alone. -/
theorem c1_device_failure_isolated_witness :
    ∃ st tr, syncMultipleDevices mgrC1 sinkC1 none = (.ok st, tr) ∧
      st.errors.countP (fun e => e.deviceId == some "B") = 1 ∧
      getEntry st.deviceStats "B" =
        some { totalRecords := 0, insertedRecords := 0,
               errors := [{ message := "unreachable" }] } ∧
      (∀ d ∈ [devC1c], (getEntry st.deviceStats d.id).isSome = true) ∧
      st.totalRecords =
        (([devC1a] ++ [devC1c]).map (fun d => (devResult sinkC1 d).totalRecords)).sum ∧
      st.insertedRecords =
        (([devC1a] ++ [devC1c]).map (fun d => (devResult sinkC1 d).insertedRecords)).sum := by
  have h := c1_device_failure_isolated mgrC1 sinkC1 none [devC1a] devC1b [devC1c]
    "unreachable" rfl (by decide) (by decide) rfl rfl rfl (fun d _ => rfl)
  simpa [devC1b] using h

/-- A resolution failure makes the pass rethrow after cleanup, before the
database is connected. -/
theorem smd_resolve_err (mgr : Manager) (sink : Sink) (ids : List String)
    (pre : List Device) (m : String) (hr : resolveDevices mgr ids = (pre, some m)) :
    syncMultipleDevices mgr sink (some ids) = (.error m, cleanupEvents pre) := by
  rw [syncMultipleDevices]
  simp only [hr]

/-- A per-device loop failure (an escaped `getDeviceInfo` rejection)
makes the pass rethrow that error after cleanup. -/
theorem smd_loop_err (mgr : Manager) (sink : Sink) (dids : Option (List String))
    (devs : List Device) (m : String) (levs : List Event)
    (hres : resolvesTo mgr dids devs) (hsc : sink.connectFail = none)
    (hloop : syncLoop sink devs stats0 = (.error m, levs)) :
    syncMultipleDevices mgr sink dids =
      (.error m, Event.dbConnect :: levs ++ cleanupEvents devs) := by
  have hmain : ∀ mdevs : List Device, mdevs = devs →
      (match sink.connectFail with
        | some m2 => (Except.error m2, Event.dbConnectFail :: cleanupEvents mdevs)
        | none =>
          let lp := syncLoop sink mdevs stats0
          match lp.1 with
          | .error m2 => (.error m2, Event.dbConnect :: lp.2 ++ cleanupEvents mdevs)
          | .ok st1 =>
            let up := if st1.insertedRecords > 0 then updateAllDevicesLastSync sink mdevs
              else (.ok (), [])
            match up.1 with
            | .error m2 => (.error m2, Event.dbConnect :: lp.2 ++ up.2 ++ cleanupEvents mdevs)
            | .ok _ =>
              match sink.disconnectFail with
              | some m2 =>
                (.error m2,
                 Event.dbConnect :: lp.2 ++ up.2 ++ [Event.dbDisconnect] ++ cleanupEvents mdevs)
              | none => (.ok st1, Event.dbConnect :: lp.2 ++ up.2 ++ [Event.dbDisconnect])) =
      (.error m, Event.dbConnect :: levs ++ cleanupEvents devs) := by
    intro mdevs hm
    subst hm
    rw [hsc]
    simp only
    rw [hloop]
  cases dids with
  | none =>
    rw [resolvesTo] at hres
    rw [syncMultipleDevices]
    simp only
    exact hmain mgr.getAllDevices hres.symm
  | some ids =>
    rw [resolvesTo] at hres
    rw [syncMultipleDevices]
    simp only [hres]
    exact hmain devs rfl

/-- C10: an escaped `getDeviceInfo` rejection.  `device.getDeviceInfo()`
is awaited before the per-device try/catch, so for a resolved set
`pre ++ bad :: post` where `bad`'s info call rejects (the preceding
devices being healthy on that call), the rejection is not recorded as a
per-device error entry — no `SyncResult` is returned at all: the pass
rethrows the rejection; devices after `bad` are never attempted (no
connect event for them appears in the trace); and connections are
cleaned up (the trace ends with the cleanup disconnects, including the
database disconnect). -/
theorem c10_info_failure_escapes (mgr : Manager) (sink : Sink) (dids : Option (List String))
    (pre : List Device) (bad : Device) (post : List Device) (m : String)
    (hres : resolvesTo mgr dids (pre ++ bad :: post))
    (hpre : ∀ d ∈ pre, d.behavior.infoFail = none)
    (hbad : bad.behavior.infoFail = some m)
    (hnodup : ((pre ++ bad :: post).map (fun d => d.id)).Nodup)
    (hsc : sink.connectFail = none) :
    ∃ tr, syncMultipleDevices mgr sink dids = (.error m, tr) ∧
      tr = Event.dbConnect :: catMap (fun d => (syncDeviceData sink d).2) pre
           ++ cleanupEvents (pre ++ bad :: post) ∧
      Event.dbDisconnect ∈ tr ∧
      (∀ d ∈ post, Event.devConnect d.id ∉ tr) := by
  have hloop := syncLoop_infoFail sink bad post m hbad pre stats0 hpre
  have heq := smd_loop_err mgr sink dids (pre ++ bad :: post) m
    (catMap (fun d => (syncDeviceData sink d).2) pre) hres hsc hloop
  refine ⟨_, heq, rfl, ?_, ?_⟩
  · refine List.mem_cons_of_mem _ (List.mem_append.mpr (.inr ?_))
    rw [cleanupEvents]
    exact List.mem_append.mpr (.inr (List.mem_cons_self _ _))
  · intro d hd he
    have hmid : (bad.id :: (pre.map (fun x => x.id) ++ post.map (fun x => x.id))).Nodup := by
      refine List.nodup_middle.mp ?_
      simpa using hnodup
    have hdisj := List.disjoint_of_nodup_append (List.nodup_cons.mp hmid).2
    rcases List.mem_cons.mp he with he | he
    · cases he
    rcases List.mem_append.mp he with he | he
    · obtain ⟨d2, hd2, hed⟩ := mem_catMap _ pre _ he
      have hid : d.id = d2.id := syncDeviceData_devConnect sink d2 d.id hed
      refine hdisj (a := d.id) ?_ ?_
      · rw [hid]; exact List.mem_map_of_mem _ hd2
      · exact List.mem_map_of_mem _ hd
    · rw [cleanupEvents] at he
      rcases List.mem_append.mp he with he | he
      · obtain ⟨d2, _, hed⟩ := List.mem_map.mp he
        cases hed
      · simp at he

/-- Witness for C10 on the registry `{A: healthy, B: getDeviceInfo
rejects, C: healthy}`: the pass rethrows B's info failure, the database
disconnect of the cleanup is in the trace, and C is never connected. -/
theorem c10_info_failure_escapes_witness :
    ∃ tr, syncMultipleDevices mgrC10 sinkC10 none = (.error "info failure", tr) ∧
      tr = Event.dbConnect :: catMap (fun d => (syncDeviceData sinkC10 d).2) [devC10a]
           ++ cleanupEvents [devC10a, devC10b, devC10c] ∧
      Event.dbDisconnect ∈ tr ∧
      (∀ d ∈ [devC10c], Event.devConnect d.id ∉ tr) :=
  c10_info_failure_escapes mgrC10 sinkC10 none [devC10a] devC10b [devC10c] "info failure"
    rfl (by decide) rfl (by decide) rfl

/-- C6: an explicitly requested unknown device id is fatal and early.
When `deviceIds` names an id with no configuration entry, the pass
rethrows `getDevice`'s unknown-device error raised during resolution — 
before the database is connected, before any device is connected, and
before any record is written: every event of the trace is a cleanup
disconnect — and no partial `SyncResult` is returned. -/
theorem c6_unknown_device_fatal (mgr : Manager) (sink : Sink) (ids : List String) (id : String)
    (hmem : id ∈ ids) (hno : mgr.hasDevice id = false) :
    ∃ m tr, syncMultipleDevices mgr sink (some ids) = (.error m, tr) ∧
      ∀ e ∈ tr, (∃ i, e = Event.devDisconnect i) ∨ e = Event.dbDisconnect := by
  obtain ⟨pre, m, hr⟩ := resolveDevices_unknown mgr ids id hmem hno
  refine ⟨m, cleanupEvents pre, smd_resolve_err mgr sink ids pre m hr, ?_⟩
  intro e he
  rw [cleanupEvents] at he
  rcases List.mem_append.mp he with he | he
  · obtain ⟨d, _, hed⟩ := List.mem_map.mp he
    exact .inl ⟨d.id, hed.symm⟩
  · right
    simpa using he

/-- Witness for C6: requesting `["A", "GHOST"]` on a registry that only
knows `A` rethrows the unknown-device error with a cleanup-only trace. -/
theorem c6_unknown_device_fatal_witness :
    ∃ m tr, syncMultipleDevices mgrC6 sinkC6 (some ["A", "GHOST"]) = (.error m, tr) ∧
      ∀ e ∈ tr, (∃ i, e = Event.devDisconnect i) ∨ e = Event.dbDisconnect :=
  c6_unknown_device_fatal mgrC6 sinkC6 ["A", "GHOST"] "GHOST" (by decide) rfl

/-! Lemmas for the configuration loader and registration chain (C9). -/

/-- A validated entry keeps the raw id, and an explicitly disabled raw
entry validates to a disabled configuration. -/
theorem validateDevice_ok_fields (r : RawDevice) (v : Device) (h : validateDevice r = .ok v) :
    v.id = r.id ∧ (r.enabled = some false → v.enabled = false) := by
  rw [validateDevice] at h
  by_cases h1 : r.id = ""
  · rw [if_pos h1] at h; cases h
  · rw [if_neg h1] at h
    by_cases h2 : r.ip = ""
    · rw [if_pos h2] at h; cases h
    · rw [if_neg h2] at h
      injection h with hv
      subst hv
      constructor
      · rfl
      · intro hd
        simp [hd]

/-- Every validated configuration comes from some raw entry. -/
theorem validateDevices_mem :
    ∀ (raws : List RawDevice) (vs : List Device), validateDevices raws = .ok vs →
      ∀ v ∈ vs, ∃ r ∈ raws, validateDevice r = .ok v := by
  intro raws
  induction raws with
  | nil =>
    intro vs h v hv
    rw [validateDevices] at h
    cases h
    cases hv
  | cons r rest ih =>
    intro vs h v hv
    rw [validateDevices] at h
    cases hvd : validateDevice r with
    | error m => rw [hvd] at h; cases h
    | ok v0 =>
    rw [hvd] at h
    cases hvs : validateDevices rest with
    | error m => rw [hvs] at h; cases h
    | ok vs0 =>
    rw [hvs] at h
    cases h
    rcases List.mem_cons.mp hv with rfl | hv
    · exact ⟨r, List.mem_cons_self r rest, hvd⟩
    · obtain ⟨r2, hr2, hv2⟩ := ih vs0 hvs v hv
      exact ⟨r2, List.mem_cons_of_mem r hr2, hv2⟩

/-- A registration adds exactly the registered configuration, keyed by
its id; existing entries stay or are replaced by it. -/
theorem registerDevice_mem (mgr : Manager) (d : Device) (mgr2 : Manager)
    (h : mgr.registerDevice d = .ok mgr2) :
    ∀ p ∈ mgr2.deviceConfigs, p ∈ mgr.deviceConfigs ∨ p = (d.id, d) := by
  rw [Manager.registerDevice] at h
  by_cases hid : d.id = ""
  · rw [if_pos hid] at h; cases h
  · rw [if_neg hid] at h
    cases h
    intro p hp
    simp only at hp
    by_cases hany : mgr.deviceConfigs.any (fun q => q.1 == d.id) = true
    · rw [if_pos hany] at hp
      obtain ⟨q, hq, hpq⟩ := List.mem_map.mp hp
      by_cases hqd : (q.1 == d.id) = true
      · rw [if_pos hqd] at hpq
        exact .inr hpq.symm
      · rw [if_neg hqd] at hpq
        exact .inl (hpq ▸ hq)
    · rw [if_neg hany] at hp
      rcases List.mem_append.mp hp with hp | hp
      · exact .inl hp
      · right
        simpa using hp

/-- Every entry of a registry built by `registerDevices` is either a
pre-existing entry or one of the registered configurations keyed by its
id. -/
theorem registerDevices_mem :
    ∀ (cfgs : List Device) (mgr mgr2 : Manager), mgr.registerDevices cfgs = .ok mgr2 →
      ∀ p ∈ mgr2.deviceConfigs, p ∈ mgr.deviceConfigs ∨ ∃ c ∈ cfgs, p = (c.id, c) := by
  intro cfgs
  induction cfgs with
  | nil =>
    intro mgr mgr2 h p hp
    rw [Manager.registerDevices] at h
    cases h
    exact .inl hp
  | cons c rest ih =>
    intro mgr mgr2 h p hp
    rw [Manager.registerDevices] at h
    cases hreg : mgr.registerDevice c with
    | error m => rw [hreg] at h; cases h
    | ok mgrm =>
    rw [hreg] at h
    rcases ih mgrm mgr2 h p hp with hp2 | ⟨c2, hc2, hpc⟩
    · rcases registerDevice_mem mgr c mgrm hreg p hp2 with hp3 | hp3
      · exact .inl hp3
      · exact .inr ⟨c, List.mem_cons_self c rest, hp3⟩
    · exact .inr ⟨c2, List.mem_cons_of_mem c hc2, hpc⟩

/-- C9 (amended): a device endpoint configured with enabled=false is
excluded from the registry entirely — the loader drops it before
registration.  When every raw entry sharing the disabled entry's id is
itself disabled, the loaded configuration list contains no entry with
that id; consequently, after registering the loaded list into an empty
registry, the endpoint is absent from enumeration AND a `Get` with its
explicit id fails with the unknown-device error (rather than succeeding
as the original claim stated). -/
theorem c9_disabled_excluded_amended (raws : List RawDevice) (cfgs : List Device)
    (r : RawDevice) (mgr : Manager)
    (hload : loadDevicesFromFile raws = .ok cfgs)
    (hall : ∀ r2 ∈ raws, r2.id = r.id → r2.enabled = some false)
    (hreg : Manager.registerDevices {} cfgs = .ok mgr) :
    (∀ c ∈ cfgs, c.id ≠ r.id) ∧
    (∀ d ∈ mgr.getAllDevices, d.id ≠ r.id) ∧
    mgr.hasDevice r.id = false ∧
    mgr.getDevice r.id = .error ("Device configuration not found for ID: " ++ r.id) := by
  rw [loadDevicesFromFile] at hload
  cases hv : validateDevices raws with
  | error m => rw [hv] at hload; cases hload
  | ok vs =>
  rw [hv] at hload
  cases hload
  have hc : ∀ c ∈ vs.filter (fun d => d.enabled), c.id ≠ r.id := by
    intro c hc0 hcon
    have hmf := List.mem_filter.mp hc0
    obtain ⟨r2, hr2, hval⟩ := validateDevices_mem raws vs hv c hmf.1
    have hfields := validateDevice_ok_fields r2 c hval
    have hdis2 : r2.enabled = some false := hall r2 hr2 (by rw [hfields.1.symm, hcon])
    have : c.enabled = false := hfields.2 hdis2
    rw [this] at hmf
    cases hmf.2
  have hkeys : ∀ p ∈ mgr.deviceConfigs, p.1 ≠ r.id := by
    intro p hp
    rcases registerDevices_mem _ {} mgr hreg p hp with hp2 | ⟨c, hcm, hpc⟩
    · exact (List.not_mem_nil p hp2).elim
    · rw [hpc]
      exact hc c hcm
  refine ⟨hc, ?_, ?_, ?_⟩
  · intro d hd
    obtain ⟨p, hp, hpd⟩ := List.mem_map.mp hd
    rcases registerDevices_mem _ {} mgr hreg p hp with hp2 | ⟨c, hcm, hpc⟩
    · exact (List.not_mem_nil p hp2).elim
    · rw [hpd.symm, hpc]
      exact hc c hcm
  · rw [Manager.hasDevice, List.any_eq_false]
    intro p hp
    simpa using hkeys p hp
  · rw [Manager.getDevice]
    have hfind : mgr.deviceConfigs.find? (fun p => p.1 == r.id) = none := by
      rw [List.find?_eq_none]
      intro p hp
      simpa using hkeys p hp
    rw [hfind]

/-- Witness for the amended C9: loading `{A: disabled, B: enabled}` and
registering the result leaves a registry that does not know `A`:
enumeration misses it and `getDevice "A"` fails. -/
theorem c9_disabled_excluded_amended_witness :
    Manager.hasDevice ⟨[("B", ⟨"B", "10.0.0.2", "B", true, {}⟩)]⟩ "A" = false ∧
    Manager.getDevice ⟨[("B", ⟨"B", "10.0.0.2", "B", true, {}⟩)]⟩ "A" =
      .error ("Device configuration not found for ID: " ++ "A") := by
  have h := c9_disabled_excluded_amended [rawC9a, rawC9b] [⟨"B", "10.0.0.2", "B", true, {}⟩]
    rawC9a ⟨[("B", ⟨"B", "10.0.0.2", "B", true, {}⟩)]⟩ rfl (by decide) rfl
  exact ⟨h.2.2.1, h.2.2.2⟩
